import Mathlib

/-!
Verification development for the gene-disease extraction pipeline.

The pipeline retrieves an article, extracts gene-symbol mentions
(`gene_extractor.extract_genes`), runs disease NER, links diseases to genes
(`gene_metadata.associate_diseases`), enriches genes through REST lookups
(`gene_metadata.fetch_*`) and writes a CSV (`writer.write_csv`).

Strings are embedded as lists of characters (`Str`).  Network and library
boundaries (requests, json, re.finditer, ElementTree, spaCy) are modelled as
oracle parameters: a function or value describing the outcome of each external
call; everything the repository's own code does with those outcomes is
translated directly.  Python exceptions are modelled with `Except`; failures
raised inside library calls are collapsed into the single kind `PErr.netError`.
-/

set_option linter.unusedVariables false

abbrev Str := List Char

/-- Character-list form of a string literal. -/
def str (s : String) : Str := s.data

/-- Python whitespace (the set recognised by `str.strip()` and the regex class `\s`). -/
def pyWsChar (c : Char) : Bool :=
  c == ' ' || c == '\t' || c == '\n' || c == '\r' || c == '\x0b' || c == '\x0c'

/-- Remove the characters satisfying `p` from both ends (Python `str.strip(chars)`). -/
def stripBoth (p : Char → Bool) (s : Str) : Str :=
  ((s.dropWhile p).reverse.dropWhile p).reverse

/-- Python `str.strip()` with no argument. -/
def pyStrip (s : Str) : Str := stripBoth pyWsChar s

/-- Python `str.lower()` (ASCII range). -/
def pyLower (s : Str) : Str := s.map Char.toLower

/-- Python `str.upper()` (ASCII range). -/
def pyUpper (s : Str) : Str := s.map Char.toUpper

/-- Python `str.isupper()`: at least one cased character and no lowercase one. -/
def pyIsUpperStr (s : Str) : Bool :=
  s.any (fun c => c.isUpper || c.isLower) && s.all (fun c => !c.isLower)

/-- Python `str.isdigit()` (ASCII digits): nonempty and all digits. -/
def pyIsDigitStr (s : Str) : Bool := !s.isEmpty && s.all Char.isDigit

/-- Python `str.endswith(suf)`. -/
def endsWithB (s suf : Str) : Bool :=
  decide (suf.length ≤ s.length) && decide (s.drop (s.length - suf.length) = suf)

/-- Python `str.startswith(p)`. -/
def startsWithB (s p : Str) : Bool := decide (s.take p.length = p)

/-- Python `s[:-n]` for `n ≥ 1`: drop the final `n` characters. -/
def takeAllBut (n : Nat) (s : Str) : Str := s.take (s.length - n)

/-- Separator class of the regex `[\s-]` used by `_is_generic`. -/
def isSepChar (c : Char) : Bool := pyWsChar c || c == '-'

/-- One step of `re.split(r"[\s-]+", ·)`, processed right to left.  The flag
records whether the character immediately to the right was a separator, so a
maximal run of separators produces a single break, while a separator at either
end of the string yields an empty piece there (Python `re.split` semantics). -/
def splitStep (c : Char) (acc : List Str × Bool) : List Str × Bool :=
  if isSepChar c then
    if acc.2 then (acc.1, true)
    else ([] :: acc.1, true)
  else
    match acc.1 with
    | [] => ([[c]], false)
    | p :: ps => ((c :: p) :: ps, false)

/-- Python `re.split(r"[\s-]+", s)`. -/
def splitSeps (s : Str) : List Str :=
  (s.foldr splitStep ([[]], false)).1

/-- The set `GENERIC_PARTS` of `gene_metadata.py`. -/
def GENERIC_PARTS : List Str :=
  [str "single", str "system", str "single-system", str "multi", str "multisystem",
   str "multi-system", str "systemic", str "common", str "rare", str "genetic",
   str "hereditary", str "familial", str "unknown",
   str "autosomal", str "dominant", str "recessive", str "tall", str "stature", str "short"]

/-- The stripped text before the trailing `" syndrome"` in the acronym special
case of `_is_generic`: `orig[:-len(" syndrome")].strip(" ,;:-")`. -/
def acrPfx (orig : Str) : Str :=
  stripBoth (fun c => c == ' ' || c == ',' || c == ';' || c == ':' || c == '-')
    (takeAllBut (str " syndrome").length orig)

/-- The acronym special case of `_is_generic`: the (stripped) term ends with
`" syndrome"` and the text before it is nonempty and all-uppercase. -/
def acronymNonGenericB (orig : Str) : Bool :=
  endsWithB orig (str " syndrome") && decide (acrPfx orig ≠ []) && pyIsUpperStr (acrPfx orig)

/-- The text before a trailing keyword in `_is_generic`'s keyword loop:
`t.rsplit(kw, 1)[0].strip(" -;,")`.  Since this is only evaluated when `t`
ends with `kw`, the last occurrence of `kw` is the final `kw.length`
characters, so `rsplit(kw, 1)[0]` is `t[:-len(kw)]`. -/
def kwPfx (t kw : Str) : Str :=
  stripBoth (fun c => c == ' ' || c == '-' || c == ';' || c == ',') (takeAllBut kw.length t)

/-- One iteration of the keyword loop of `_is_generic`: `some true` models
`return True`, `none` models falling through to the next keyword. -/
def kwHit (t kw : Str) : Option Bool :=
  if endsWithB t kw then
    if kwPfx t kw ≠ [] then
      if (splitSeps (kwPfx t kw)).all (fun part => decide (part ∈ GENERIC_PARTS)) then
        some true
      else none
    else some true
  else none

/-- The checks of `_is_generic` performed on the lowered stripped term, after
the acronym special case: the exact generic words, the keyword loop, and the
final one-or-two-generic-words test. -/
def genericCore (t : Str) : Bool :=
  if t = str "disease" ∨ t = str "syndrome" ∨ t = str "disorder" then true
  else
    match kwHit t (str "disease") <|> kwHit t (str "syndrome") <|> kwHit t (str "disorder") with
    | some b => b
    | none =>
      decide ((splitSeps t).length ≤ 2) &&
        (splitSeps t).all (fun part => decide (part ∈ GENERIC_PARTS))

/-- `gene_metadata._is_generic`. -/
def isGeneric (term : Str) : Bool :=
  if acronymNonGenericB (pyStrip term) then false
  else genericCore (pyLower (pyStrip term))

/-- JSON values, as produced by `resp.json()`. -/
inductive Json where
  | null
  | jbool (b : Bool)
  | jnum (n : Int)
  | jstr (s : Str)
  | jarr (elems : List Json)
  | jobj (fields : List (Str × Json))

/-- Python exception kinds distinguished by the embedding.  Exceptions raised
inside a library call (requests, json decoding, XML parsing) are collapsed
into `netError`; the kinds the repository's own code can raise or trigger are
kept apart. -/
inductive PErr where
  | valueError | runtimeError | attrError | typeError | indexError | keyError | netError
deriving DecidableEq

/-- Python `d.get(k, dflt)`: raises `AttributeError` when the receiver is not
a dict. -/
def pyGet (j : Json) (k : Str) (dflt : Json) : Except PErr Json :=
  match j with
  | .jobj fields =>
      match fields.find? (fun kv => decide (kv.1 = k)) with
      | some kv => .ok kv.2
      | none => .ok dflt
  | _ => .error .attrError

/-- Python truthiness of a JSON value. -/
def pyTruthy : Json → Bool
  | .null => false
  | .jbool b => b
  | .jnum n => decide (n ≠ 0)
  | .jstr s => !s.isEmpty
  | .jarr xs => !xs.isEmpty
  | .jobj fs => !fs.isEmpty

/-- Python `x[0]`: head of a list, first character of a string; `KeyError` on
a dict, `TypeError` on anything else. -/
def pyIndex0 : Json → Except PErr Json
  | .jarr (x :: _) => .ok x
  | .jarr [] => .error .indexError
  | .jstr (c :: _) => .ok (.jstr [c])
  | .jstr [] => .error .indexError
  | .jobj _ => .error .keyError
  | _ => .error .typeError

/-- Python `x > 0` on a JSON value: bools count as ints, non-numbers raise
`TypeError`. -/
def pyGtZero : Json → Except PErr Bool
  | .jnum n => .ok (decide (0 < n))
  | .jbool b => .ok b
  | _ => .error .typeError

/-- Decimal rendering of an integer. -/
def intToStr (n : Int) : Str :=
  match n with
  | .ofNat m => Nat.toDigits 10 m
  | .negSucc m => '-' :: Nat.toDigits 10 (m + 1)

mutual

/-- Python `repr` of a JSON value (string quoting modelled with plain single
quotes). -/
def pyReprJ : Json → Str
  | .null => str "None"
  | .jbool true => str "True"
  | .jbool false => str "False"
  | .jnum n => intToStr n
  | .jstr s => '\'' :: (s ++ ['\''])
  | .jarr xs => '[' :: (pyReprSeq xs ++ [']'])
  | .jobj fs => Char.ofNat 123 :: (pyReprPairs fs ++ [Char.ofNat 125])

/-- Comma-separated `repr`s of list elements. -/
def pyReprSeq : List Json → Str
  | [] => []
  | [x] => pyReprJ x
  | x :: xs => pyReprJ x ++ (',' :: ' ' :: pyReprSeq xs)

/-- Comma-separated `repr`s of dict items. -/
def pyReprPairs : List (Str × Json) → Str
  | [] => []
  | [kv] => '\'' :: (kv.1 ++ ['\'', ':', ' ']) ++ pyReprJ kv.2
  | kv :: rest => ('\'' :: (kv.1 ++ ['\'', ':', ' ']) ++ pyReprJ kv.2) ++ (',' :: ' ' :: pyReprPairs rest)

end

/-- Python `str()` of a JSON value, as interpolated by an f-string. -/
def pyFStr : Json → Str
  | .jstr s => s
  | j => pyReprJ j

/-- Outcomes of the three lookups tried by `is_valid_disease_name` for one
query.  `none` models the request raising; for MedGen and MeSH the payload is
the status code together with whether `'<Id>'` occurs in the response text;
for EBI OLS it is the status code together with the decoded JSON body
(`none` when `resp.json()` raises). -/
structure DiseaseLookups where
  medgen : Option (Nat × Bool)
  mesh : Option (Nat × Bool)
  ols : Option (Nat × Option Json)

/-- The MedGen / MeSH acceptance test: status 200 and `'<Id>'` present. -/
def idConfirm : Option (Nat × Bool) → Bool
  | some (status, hasId) => decide (status = 200) && hasId
  | none => false

/-- The EBI OLS acceptance test: status 200 and
`data.get('response', {}).get('numFound', 0) > 0`, any exception inside the
`try` block (including JSON decoding and shape errors) giving `false`. -/
def olsConfirm : Option (Nat × Option Json) → Bool
  | some (status, some data) =>
      decide (status = 200) &&
        (match (do
            let r ← pyGet data (str "response") (.jobj [])
            let n ← pyGet r (str "numFound") (.jnum 0)
            pyGtZero n : Except PErr Bool) with
         | .ok b => b
         | .error _ => false)
  | some (_, none) => false
  | none => false

/-- `gene_metadata.is_valid_disease_name`, with the three database lookups
supplied by the oracle `L`. -/
def is_valid_disease_name (L : Str → DiseaseLookups) (term : Str) : Bool :=
  let query := pyStrip term
  if query = [] then false
  else
    if idConfirm (L query).medgen then true
    else if idConfirm (L query).mesh then true
    else if olsConfirm (L query).ols then true
    else false

/-- A gene record as built by `extract_genes` and consumed by
`associate_diseases`: the dict
`{"symbol": ..., "hgnc_id": ..., "mentions": [...], "diseases": {...}}`,
with the disease set modelled as a duplicate-free list. -/
structure Gene where
  symbol : Str
  hgnc_id : Option Nat
  mentions : List (Nat × Nat)
  diseases : List Str
deriving DecidableEq

/-- A spaCy sentence span: `sent.start_char` and `sent.end_char`. -/
structure Sent where
  start_char : Nat
  end_char : Nat
deriving DecidableEq

/-- A spaCy entity span: label, raw text, character offsets and the containing
sentence (`ent.sent`). -/
structure Ent where
  label : Str
  text : Str
  start_char : Nat
  end_char : Nat
  sent : Sent
deriving DecidableEq

/-- A parsed spaCy document: its sentences (`doc.sents`) and entities
(`doc.ents`). -/
structure Doc where
  sents : List Sent
  ents : List Ent
deriving DecidableEq

/-- The disease name cleaned by `associate_diseases`:
`ent.text.strip().strip('.,;:')`. -/
def cleanName (t : Str) : Str :=
  stripBoth (fun c => c == '.' || c == ',' || c == ';' || c == ':') (pyStrip t)

/-- Whether a mention `(m_start, m_end)` lies within the sentence span
`[a, b]`: `m_start >= a and m_end <= b`. -/
def inSent (a b : Nat) (m : Nat × Nat) : Bool :=
  decide (a ≤ m.1) && decide (m.2 ≤ b)

/-- Python `set.add`: append unless already present. -/
def setAdd (l : List Str) (x : Str) : List Str :=
  if x ∈ l then l else l ++ [x]

/-- Add a disease name to the disease set of the gene at index `i`
(the in-place mutation `gene.setdefault("diseases", set()).add(name)`). -/
def addDiseaseAt : List Gene → Nat → Str → List Gene
  | [], _, _ => []
  | g :: gs, 0, name => { g with diseases := setAdd g.diseases name } :: gs
  | g :: gs, Nat.succ i, name => g :: addDiseaseAt gs i name

/-- The distinct symbols of the genes having a mention inside the sentence
`s0`: the set comprehension
`{gene["symbol"] for gene in genes for (ms, me) in gene["mentions"] if ms >= start and me <= end}`. -/
def symbolsIn (genes : List Gene) (s0 : Sent) : List Str :=
  ((genes.filter (fun g => g.mentions.any (inSent s0.start_char s0.end_char))).map
    (fun g => g.symbol)).dedup

/-- The adjacent-sentence rule: when the sentence contains mentions of exactly
one distinct gene symbol, the index of the first gene carrying that symbol
(`next(g for g in genes if g["symbol"] == sym)`). -/
def uniqueSymLink (genes : List Gene) (s0 : Sent) : Option Nat :=
  match symbolsIn genes s0 with
  | [sym] => genes.findIdx? (fun g => decide (g.symbol = sym))
  | _ => none

/-- The running-minimum update of the same-sentence loop:
`if dist < min_distance: min_distance, closest_gene = dist, gene`
(with `none` standing for the initial `min_distance = inf`). -/
def minStep (best : Option (Nat × Nat)) (c : Nat × Nat) : Option (Nat × Nat) :=
  match best with
  | none => some c
  | some (bi, bd) => if c.2 < bd then some c else some (bi, bd)

/-- Twice the distance between the midpoint of a mention and the midpoint of
the disease span (distances are compared, never used absolutely, so doubling
both sides preserves the Python float comparison exactly). -/
def dist2 (m : Nat × Nat) (c2 : Int) : Nat :=
  (((m.1 : Int) + (m.2 : Int)) - c2).natAbs

/-- The candidate a gene contributes to the same-sentence comparison: its
index paired with the distance computed from its first in-sentence mention
(the loop `for (m_start, m_end) in gene["mentions"]: if ...: ...; break`),
`none` when no mention falls inside the sentence. -/
def candFn (a b : Nat) (c2 : Int) (ig : Nat × Gene) : Option (Nat × Nat) :=
  (ig.2.mentions.find? (inSent a b)).map (fun m => (ig.1, dist2 m c2))

/-- The same-sentence candidates of all genes, in gene order. -/
def inSentCands (genes : List Gene) (a b : Nat) (c2 : Int) : List (Nat × Nat) :=
  genes.enum.filterMap (candFn a b c2)

/-- One iteration of the same-sentence closest-gene loop. -/
def closestStep (a b : Nat) (c2 : Int) (best : Option (Nat × Nat)) (ig : Nat × Gene) :
    Option (Nat × Nat) :=
  match ig.2.mentions.find? (inSent a b) with
  | some m => minStep best (ig.1, dist2 m c2)
  | none => best

/-- The adjacent-sentence fallback of `associate_diseases`: try the sentence
before (when there is one), then the sentence after (when there is one), each
under the exactly-one-distinct-symbol rule. -/
def adjacentLink (sentences : List Sent) (genes : List Gene) (sent_index : Nat) :
    Option Nat :=
  match (if 0 < sent_index then
          match sentences.get? (sent_index - 1) with
          | some prev_sent => uniqueSymLink genes prev_sent
          | none => none
         else none) with
  | some j => some j
  | none =>
    if sent_index < sentences.length - 1 then
      match sentences.get? (sent_index + 1) with
      | some next_sent => uniqueSymLink genes next_sent
      | none => none
    else none

/-- The body of the entity loop of `associate_diseases`, reduced to its one
effect: which gene index (if any) gains which disease name.  `none` models an
iteration that records nothing. -/
def linkTarget (L : Str → DiseaseLookups) (sentences : List Sent) (genes : List Gene)
    (ent : Ent) : Option (Nat × Str) :=
  if ent.label ≠ str "DISEASE" then none
  else if cleanName ent.text = [] then none
  else if isGeneric (cleanName ent.text) then none
  else if is_valid_disease_name L (cleanName ent.text) = false then none
  else if (genes.enum.filter (fun ig =>
      ig.2.mentions.any (inSent ent.sent.start_char ent.sent.end_char))).isEmpty then
    match sentences.findIdx? (fun s0 => decide (s0.start_char = ent.sent.start_char)) with
    | none => none
    | some sent_index =>
      (adjacentLink sentences genes sent_index).map (fun j => (j, cleanName ent.text))
  else
    ((genes.enum.filter (fun ig =>
        ig.2.mentions.any (inSent ent.sent.start_char ent.sent.end_char))).foldl
      (closestStep ent.sent.start_char ent.sent.end_char
        ((ent.start_char : Int) + (ent.end_char : Int))) none).map
      (fun bi => (bi.1, cleanName ent.text))

/-- One iteration of the entity loop of `associate_diseases`. -/
def processEnt (L : Str → DiseaseLookups) (sentences : List Sent) (genes : List Gene)
    (ent : Ent) : List Gene :=
  match linkTarget L sentences genes ent with
  | some (i, name) => addDiseaseAt genes i name
  | none => genes

/-- `gene_metadata.associate_diseases`: annotate the genes with the diseases
linked to them, scanning `doc.ents` once in order. -/
def associate_diseases (L : Str → DiseaseLookups) (genes : List Gene) (doc : Doc) :
    List Gene :=
  doc.ents.foldl (processEnt L doc.sents) genes

/-- Twice the distance from the disease midpoint to the nearest in-sentence
mention of a gene, `none` when the gene has no in-sentence mention.  Used only
to state the spec's version of the same-sentence rule. -/
def nearestDist2 (a b : Nat) (c2 : Int) (g : Gene) : Option Nat :=
  (g.mentions.filter (inSent a b)).foldl
    (fun acc m =>
      match acc with
      | none => some (dist2 m c2)
      | some bd => if dist2 m c2 < bd then some (dist2 m c2) else some bd) none

/-- Stated from the spec's words, for comparison with the code: "choose the
gene whose nearest mention midpoint is closest to the disease span's midpoint
(ties unresolved - first found wins)". -/
def specNearestGeneIdx (genes : List Gene) (a b : Nat) (c2 : Int) : Option Nat :=
  ((genes.enum.filterMap
      (fun ig => (nearestDist2 a b c2 ig.2).map (fun d => (ig.1, d)))).foldl
    minStep none).map (fun bi => bi.1)

/-- A record returned by `gene_extractor.extract_genes`. -/
structure GeneRec where
  symbol : Str
  hgnc_id : Option Nat
  mentions : List (Nat × Nat)
deriving DecidableEq

/-- A match of the explicit pattern `\b([A-Z0-9-]+)\s*\([^)]*HGNC:(\d+)\)`:
the span of group 1 and the numeric HGNC id of group 2.  The matches are an
oracle for `re.finditer`; a regex match always satisfies
`group(1) == text[start(1):end(1)]`. -/
structure EMatch where
  s1 : Nat
  e1 : Nat
  hid : Nat
deriving DecidableEq

/-- A match of the case-insensitive context pattern
`(?:(?:variant|...|VUSs)\s+in\s+(?:the\s+|a\s+)?)([A-Z0-9-]+)\b`: the span of
group 1. -/
structure CMatch where
  s1 : Nat
  e1 : Nat
deriving DecidableEq

/-- Python `text[a:b]` for `0 ≤ a ≤ b`. -/
def pySlice (text : Str) (a b : Nat) : Str := (text.drop a).take (b - a)

/-- Update applied to every record when the explicit pattern hits a known
symbol: fill a missing HGNC id and append the mention on the matching record,
leave the rest alone. -/
def updExplicit (sym : Str) (hid : Nat) (men : Nat × Nat) (g : GeneRec) : GeneRec :=
  if g.symbol = sym then
    { g with
      hgnc_id := match g.hgnc_id with | none => some hid | some h => some h,
      mentions := g.mentions ++ [men] }
  else g

/-- The explicit-pattern branch of the extraction loop: create the record on a
new symbol, fill a missing HGNC id on a known one, and always append the
mention. -/
def upsertExplicit (acc : List GeneRec) (sym : Str) (hid : Nat) (men : Nat × Nat) :
    List GeneRec :=
  if sym ∈ acc.map (fun g => g.symbol) then acc.map (updExplicit sym hid men)
  else acc ++ [{ symbol := sym, hgnc_id := some hid, mentions := [men] }]

/-- Update applied to every record when the context pattern hits a known
symbol: append the mention on the matching record. -/
def updContext (sym : Str) (men : Nat × Nat) (g : GeneRec) : GeneRec :=
  if g.symbol = sym then { g with mentions := g.mentions ++ [men] } else g

/-- The context-pattern branch of the extraction loop: create the record
(without an HGNC id) on a new symbol and append the mention. -/
def upsertContext (acc : List GeneRec) (sym : Str) (men : Nat × Nat) : List GeneRec :=
  if sym ∈ acc.map (fun g => g.symbol) then acc.map (updContext sym men)
  else acc ++ [{ symbol := sym, hgnc_id := none, mentions := [men] }]

/-- `gene_extractor.extract_genes`, with the two `re.finditer` streams given
as oracles.  The Python dict keyed by symbol is an insertion-ordered
association list; the final loop converts it to the output list. -/
def extract_genes (text : Str) (ems : List EMatch) (cms : List CMatch) : List GeneRec :=
  (cms.foldl
    (fun acc m => upsertContext acc (pyUpper (pySlice text m.s1 m.e1)) (m.s1, m.e1))
    (ems.foldl
      (fun acc m => upsertExplicit acc (pyUpper (pySlice text m.s1 m.e1)) m.hid (m.s1, m.e1))
      [])).map (fun g => { symbol := g.symbol, hgnc_id := g.hgnc_id, mentions := g.mentions })

/-- `gene_metadata.fetch_hgnc_by_symbol`.  The oracle gives the outcome of
`_hgnc_api` for a path: `none` when it raises (network, HTTP status or JSON
decoding), otherwise the decoded JSON. -/
def fetch_hgnc_by_symbol (api : Str → Option Json) (symbol : Str) : Except PErr Json :=
  match api (str "fetch/symbol/" ++ symbol) with
  | none => .ok (.jobj [])
  | some data => do
      let r ← pyGet data (str "response") (.jobj [])
      let docs ← pyGet r (str "docs") (.jarr [])
      if pyTruthy docs then pyIndex0 docs else pure (.jobj [])

/-- `gene_metadata.fetch_hgnc_by_id`. -/
def fetch_hgnc_by_id (api : Str → Option Json) (hgnc_id : Str) : Except PErr Json :=
  if hgnc_id = [] then .ok (.jobj [])
  else
    let hid := if startsWithB hgnc_id (str "HGNC:") then hgnc_id else str "HGNC:" ++ hgnc_id
    match api (str "fetch/hgnc_id/" ++ hid) with
    | none => .ok (.jobj [])
    | some data => do
        let r ← pyGet data (str "response") (.jobj [])
        let docs ← pyGet r (str "docs") (.jarr [])
        if pyTruthy docs then pyIndex0 docs else pure (.jobj [])

/-- Python `s.split(",")`: split at every comma, keeping empty pieces. -/
def pySplitComma (s : Str) : List Str :=
  s.foldr
    (fun c acc =>
      if c == ',' then [] :: acc
      else
        match acc with
        | [] => [[c]]
        | p :: ps => (c :: p) :: ps) [[]]

/-- `gene_metadata.fetch_ncbi_aliases`.  The oracle gives the outcome of
`requests.get(url).json()`: `none` when that expression raises (both calls sit
inside the `try`), otherwise the decoded JSON. -/
def fetch_ncbi_aliases (api : Option Json) (entrez_id : Str) : Except PErr (List Str) :=
  match api with
  | none => .ok []
  | some data => do
      let result ← pyGet data (str "result") (.jobj [])
      let r2 ← pyGet result entrez_id (.jobj [])
      let aliases_str ← pyGet r2 (str "otheraliases") (.jstr [])
      if !pyTruthy aliases_str then pure []
      else
        match aliases_str with
        | .jstr s =>
            pure (((pySplitComma s).map pyStrip).filter (fun a => decide (a ≠ [])))
        | _ => .error .attrError

/-- `gene_metadata.fetch_coordinates_by_ensembl`.  The oracle gives the
outcome of the guarded block: `none` when `requests.get` raises, otherwise the
status code and the outcome of `resp.json()` (`none` when it raises); all of
that sits inside the `try`. -/
def fetch_coordinates_by_ensembl (net : Option (Nat × Option Json)) : Except PErr Str :=
  match net with
  | none => .ok []
  | some (status, pj) =>
    if status ≠ 200 then .ok []
    else
      match pj with
      | none => .ok []
      | some data =>
        if !pyTruthy data then .ok []
        else do
          let seq_region ← pyGet data (str "seq_region_name") .null
          let s0 ← pyGet data (str "start") .null
          let e0 ← pyGet data (str "end") .null
          if pyTruthy seq_region && pyTruthy s0 && pyTruthy e0 then
            pure (str "chr" ++ pyFStr seq_region ++ str ":" ++ pyFStr s0 ++ str "-" ++ pyFStr e0)
          else pure []

/-- An ElementTree element: tag, leading text, children, and trailing text
(`elem.tail`). -/
inductive Xml where
  | elem (tag : Str) (txt : Str) (children : List Xml) (tail : Str)

/-- The tail text of an element. -/
def Xml.tailOf : Xml → Str
  | .elem _ _ _ tl => tl

mutual

/-- ElementTree `elem.itertext()`, joined: the element's text followed by each
child's itertext and tail. -/
def itertext : Xml → Str
  | .elem _ txt children _ => txt ++ itertextList children

/-- Helper for `itertext` over a child list. -/
def itertextList : List Xml → Str
  | [] => []
  | c :: rest => (itertext c ++ c.tailOf) ++ itertextList rest

end

mutual

/-- ElementTree `root.iter()`: the element followed by its descendants in
document order. -/
def xmlIter : Xml → List Xml
  | .elem tag txt children tl => .elem tag txt children tl :: xmlIterList children

/-- Helper for `xmlIter` over a child list. -/
def xmlIterList : List Xml → List Xml
  | [] => []
  | c :: rest => xmlIter c ++ xmlIterList rest

end

/-- Structural worker for `removeTags`; the fuel bounds the number of
characters still to be consumed, so it never runs out when started at the
string's length. -/
def removeTagsAux : Nat → Str → Str
  | _, [] => []
  | 0, s => s
  | fuel + 1, c :: cs =>
    if c = '<' then
      match cs.findIdx? (fun d => decide (d = '>')) with
      | none => c :: cs
      | some k =>
        if k = 0 then c :: removeTagsAux fuel cs
        else removeTagsAux fuel (cs.drop (k + 1))
    else c :: removeTagsAux fuel cs

/-- Python `re.sub(r"<[^>]+>", "", s)`: at each `<`, a match needs at least
one non-`>` character before the next `>`; unmatched text is kept. -/
def removeTags (s : Str) : Str := removeTagsAux s.length s

/-- Python `re.sub(r"\s+", " ", s)`: collapse each whitespace run into a
single space. -/
def collapseWs (s : Str) : Str :=
  s.foldr
    (fun c acc =>
      if pyWsChar c then
        match acc with
        | ' ' :: _ => acc
        | _ => ' ' :: acc
      else c :: acc) []

/-- The PMID-to-PMCID mapping step of `get_article_text`, via the Europe PMC
search endpoint.  The oracle `searchNet pmid` gives the outcome of
`requests.get(...)`, `raise_for_status()` and `resp.json()` taken together:
`none` when any of them raises, otherwise the decoded JSON. -/
def resolvePmcid (searchNet : Str → Option Json) (pmid : Str) : Except PErr Str :=
  match searchNet pmid with
  | none => .error .netError
  | some data =>
    match (do
        let rl ← pyGet data (str "resultList") (.jobj [])
        pyGet rl (str "result") (.jarr []) : Except PErr Json) with
    | .error e => .error e
    | .ok results =>
      if !pyTruthy results then .error .runtimeError
      else
        match (do
            let first ← pyIndex0 results
            pyGet first (str "pmcid") .null : Except PErr Json) with
        | .error e => .error e
        | .ok pmcid =>
          if !pyTruthy pmcid then .error .runtimeError
          else .ok (pyFStr pmcid)

/-- The download-and-extract step of `get_article_text`: fetch the fullTextXML
for a PMCID (`xmlNet`; `none` when `requests.get` or `raise_for_status`
raises), parse it (`xmlParse`; `none` models `ET.ParseError`, answered with
the tag-stripped raw text), locate the first element whose tag ends in
"body", and return its whitespace-normalised text (empty when absent). -/
def fetchBody (xmlNet : Str → Option Str) (xmlParse : Str → Option Xml)
    (pmcid : Str) : Except PErr Str :=
  match xmlNet pmcid with
  | none => .error .netError
  | some xml_content =>
    match xmlParse xml_content with
    | none => .ok (removeTags xml_content)
    | some root =>
      match (xmlIter root).find? (fun el =>
          match el with | .elem tag _ _ _ => endsWithB tag (str "body")) with
      | none => .ok []
      | some body_elem => .ok (pyStrip (collapseWs (itertext body_elem)))

/-- `article_retriever.get_article_text`: identify the accession (raising
`ValueError` on a malformed identifier), map a PMID to a PMCID through Europe
PMC when needed, then download and extract the body text. -/
def get_article_text (searchNet : Str → Option Json) (xmlNet : Str → Option Str)
    (xmlParse : Str → Option Xml) (identifier : Str) : Except PErr Str :=
  if startsWithB (pyUpper (pyStrip identifier)) (str "PMC") then
    fetchBody xmlNet xmlParse (pyStrip identifier)
  else if startsWithB (pyUpper (pyStrip identifier)) (str "PMID") then
    match resolvePmcid searchNet ((pyStrip identifier).drop 4) with
    | .error e => .error e
    | .ok pmcid => fetchBody xmlNet xmlParse pmcid
  else if pyIsDigitStr (pyStrip identifier) then
    match resolvePmcid searchNet (pyStrip identifier) with
    | .error e => .error e
    | .ok pmcid => fetchBody xmlNet xmlParse pmcid
  else .error .valueError

/-- `models.GeneInfo`. -/
structure GeneInfo where
  hgnc_id : Str
  gene_symbol : Str
  gene_name : Str
  gene_aliases : Str
  coord_hg38 : Str
  coord_hg19 : Str
  disease : Str
deriving DecidableEq

/-- The fixed header row of `writer.write_csv`. -/
def csvHeaders : List Str :=
  [str "HGNC ID", str "Gene Symbol", str "HGNC Gene Name",
   str "Gene Aliases", str "hg38 Coordinates", str "hg19 Coordinates", str "Disease"]

/-- The row written for one `GeneInfo` record, in column order. -/
def geneInfoRow (g : GeneInfo) : List Str :=
  [g.hgnc_id, g.gene_symbol, g.gene_name, g.gene_aliases, g.coord_hg38, g.coord_hg19, g.disease]

/-- One CSV cell under the default QUOTE_MINIMAL dialect: quote when the field
contains the delimiter, the quote character or a line break, doubling quote
characters. -/
def csvField (s : Str) : Str :=
  if s.any (fun c => c == ',' || c == '"' || c == '\r' || c == '\n') then
    '"' :: (s.foldr (fun c acc => if c = '"' then '"' :: '"' :: acc else c :: acc) [] ++ ['"'])
  else s

/-- Comma-separated concatenation of cells. -/
def joinComma : List Str → Str
  | [] => []
  | [x] => x
  | x :: xs => x ++ (',' :: joinComma xs)

/-- One `writer.writerow` call: the quoted cells joined by commas, terminated
by CRLF (the csv module's default line terminator). -/
def csvLine (cells : List Str) : Str :=
  joinComma (cells.map csvField) ++ ['\r', '\n']

/-- `writer.write_csv`, as the text written to the file: the header row, then
one row per record in input order. -/
def write_csv (rows : List GeneInfo) : Str :=
  rows.foldl (fun out g => out ++ csvLine (geneInfoRow g)) (csvLine csvHeaders)

/-- Rendering of a whole table of rows, used to state what `write_csv`
produces. -/
def csvRender (rs : List (List Str)) : Str :=
  (rs.map csvLine).flatten

/-! ## Lemmas about `splitSeps` -/

theorem splitStep_shape (xs : Str) (p : Str) (ps : List Str) (b : Bool) :
    ∃ q r, (xs.foldr splitStep (p :: ps, b)).1 = q :: r ∧ ps <:+ r := by
  induction xs with
  | nil => exact ⟨p, ps, rfl, List.suffix_refl ps⟩
  | cons c cs ih =>
    obtain ⟨q, r, hqr, hsuf⟩ := ih
    rw [List.foldr_cons]
    by_cases hsep : isSepChar c = true
    · by_cases hb : (cs.foldr splitStep (p :: ps, b)).2 = true
      · exact ⟨q, r, by simp [splitStep, hsep, hb, hqr], hsuf⟩
      · refine ⟨[], q :: r, ?_, hsuf.trans (List.suffix_cons q r)⟩
        simp [splitStep, hsep, hb, hqr]
    · refine ⟨c :: q, r, ?_, hsuf⟩
      simp [splitStep, hsep, hqr]

theorem syndrome_mem_splitSeps (t : Str) (h : endsWithB t (str " syndrome") = true) :
    str "syndrome" ∈ splitSeps t := by
  have h9 : (str " syndrome").length = 9 := by decide
  simp only [endsWithB, h9, Bool.and_eq_true, decide_eq_true_eq] at h
  obtain ⟨hle, hdrop⟩ := h
  have hsplit : t = t.take (t.length - 9) ++ str " syndrome" := by
    conv_lhs => rw [← List.take_append_drop (t.length - 9) t]
    rw [hdrop]
  rw [hsplit]
  unfold splitSeps
  rw [List.foldr_append]
  have hbase : (str " syndrome").foldr splitStep ([[]], false) = ([[], str "syndrome"], true) := by
    decide
  rw [hbase]
  obtain ⟨q, r, hqr, hsuf⟩ := splitStep_shape (t.take (t.length - 9)) [] [str "syndrome"] true
  rw [hqr]
  have hmem : str "syndrome" ∈ r := hsuf.subset (by simp)
  exact List.mem_cons_of_mem q hmem

theorem endsWithB_pyLower (s suf : Str) (h : endsWithB s suf = true)
    (hfix : pyLower suf = suf) : endsWithB (pyLower s) suf = true := by
  simp only [endsWithB, Bool.and_eq_true, decide_eq_true_eq] at h ⊢
  obtain ⟨hle, hdrop⟩ := h
  refine ⟨by simpa [pyLower] using hle, ?_⟩
  have hlen : (pyLower s).length = s.length := by simp [pyLower]
  calc (pyLower s).drop ((pyLower s).length - suf.length)
      = pyLower (s.drop (s.length - suf.length)) := by
        simp [pyLower, hlen, List.map_drop]
    _ = pyLower suf := by rw [hdrop]
    _ = suf := hfix

/-! ## Lemmas about the keyword loop of `_is_generic` -/

theorem kwHit_ne_some_false (t kw : Str) (b : Bool) (h : kwHit t kw = some b) :
    b = true := by
  unfold kwHit at h
  split at h
  · split at h
    · split at h
      · exact (Option.some.inj h).symm
      · cases h
    · exact (Option.some.inj h).symm
  · cases h

theorem kwHit_some_true (t kw : Str) (hend : endsWithB t kw = true)
    (hpfx : kwPfx t kw = [] ∨
      (splitSeps (kwPfx t kw)).all (fun part => decide (part ∈ GENERIC_PARTS)) = true) :
    kwHit t kw = some true := by
  unfold kwHit
  rw [if_pos hend]
  rcases hpfx with hpfx | hpfx
  · rw [if_neg (by simp [hpfx])]
  · by_cases hne : kwPfx t kw ≠ []
    · rw [if_pos hne, if_pos hpfx]
    · rw [if_neg hne]

theorem optChain_ne_some_false (o1 o2 o3 : Option Bool)
    (h1 : ∀ b, o1 = some b → b = true) (h2 : ∀ b, o2 = some b → b = true)
    (h3 : ∀ b, o3 = some b → b = true) (b : Bool)
    (h : (o1 <|> o2 <|> o3) = some b) : b = true := by
  rcases o1 with _ | b1
  · rcases o2 with _ | b2
    · rcases o3 with _ | b3
      · simp at h
      · simp at h; exact h ▸ h3 b3 rfl
    · simp at h; exact h ▸ h2 b2 rfl
  · simp at h; exact h ▸ h1 b1 rfl

theorem optChain_some_true (o1 o2 o3 : Option Bool)
    (h1 : ∀ b, o1 = some b → b = true) (h2 : ∀ b, o2 = some b → b = true)
    (h : o1 = some true ∨ o2 = some true ∨ o3 = some true) :
    (o1 <|> o2 <|> o3) = some true := by
  rcases o1 with _ | b1
  · rcases o2 with _ | b2
    · rcases h with h | h | h
      · cases h
      · cases h
      · simpa using h
    · have := h2 b2 rfl
      subst this
      simp
  · have := h1 b1 rfl
    subst this
    simp

/-! ## Guard behaviour of the entity loop -/

theorem linkTarget_guard_none (L : Str → DiseaseLookups) (sents : List Sent)
    (genes : List Gene) (ent : Ent)
    (h : ent.label ≠ str "DISEASE" ∨ cleanName ent.text = [] ∨
      isGeneric (cleanName ent.text) = true ∨
      is_valid_disease_name L (cleanName ent.text) = false) :
    linkTarget L sents genes ent = none := by
  rcases h with h | h | h | h <;> simp [linkTarget, h]

theorem assoc_singleton (L : Str → DiseaseLookups) (sents : List Sent)
    (genes : List Gene) (ent : Ent) :
    associate_diseases L genes ⟨sents, [ent]⟩ = processEnt L sents genes ent := rfl

theorem processEnt_of_none (L : Str → DiseaseLookups) (sents : List Sent)
    (genes : List Gene) (ent : Ent) (h : linkTarget L sents genes ent = none) :
    processEnt L sents genes ent = genes := by
  simp [processEnt, h]

/-- C4: the generic-term filter classifies "disease" and "autosomal
recessive" as generic; any term whose lowered stripped text is one or two
generic qualifier words is generic; any term ending in
disease/syndrome/disorder after only generic qualifiers is generic unless the
all-uppercase " syndrome" special case fires; any term whose stripped text
before a trailing " syndrome" is nonempty and all-uppercase is non-generic
(even for a generic qualifier such as "SHORT"); and a generic disease name is
never linked to any gene by `associate_diseases`. -/
theorem C4_generic_filter :
    isGeneric (str "disease") = true ∧
    isGeneric (str "autosomal recessive") = true ∧
    (∀ term, (splitSeps (pyLower (pyStrip term))).length ≤ 2 →
      (∀ part ∈ splitSeps (pyLower (pyStrip term)), part ∈ GENERIC_PARTS) →
      isGeneric term = true) ∧
    (∀ term kw, acronymNonGenericB (pyStrip term) = false →
      kw ∈ [str "disease", str "syndrome", str "disorder"] →
      endsWithB (pyLower (pyStrip term)) kw = true →
      (kwPfx (pyLower (pyStrip term)) kw = [] ∨
        ∀ part ∈ splitSeps (kwPfx (pyLower (pyStrip term)) kw), part ∈ GENERIC_PARTS) →
      isGeneric term = true) ∧
    (∀ term, acronymNonGenericB (pyStrip term) = true → isGeneric term = false) ∧
    (∀ L sents genes ent, isGeneric (cleanName ent.text) = true →
      associate_diseases L genes ⟨sents, [ent]⟩ = genes) := by
  refine ⟨by decide, by decide, ?_, ?_, ?_, ?_⟩
  · -- one or two generic qualifier words
    intro term h1 h2
    have hac : acronymNonGenericB (pyStrip term) = false := by
      by_contra hac
      have hac' : acronymNonGenericB (pyStrip term) = true := by
        cases h' : acronymNonGenericB (pyStrip term)
        · exact absurd h' hac
        · rfl
      have hend : endsWithB (pyStrip term) (str " syndrome") = true := by
        simp only [acronymNonGenericB, Bool.and_eq_true] at hac'
        exact hac'.1.1
      have hendl : endsWithB (pyLower (pyStrip term)) (str " syndrome") = true :=
        endsWithB_pyLower _ _ hend (by decide)
      have hmem : str "syndrome" ∈ splitSeps (pyLower (pyStrip term)) :=
        syndrome_mem_splitSeps _ hendl
      have : str "syndrome" ∈ GENERIC_PARTS := h2 _ hmem
      exact absurd this (by decide)
    unfold isGeneric
    rw [if_neg (by simp [hac])]
    unfold genericCore
    split
    · rfl
    · cases hchain : (kwHit (pyLower (pyStrip term)) (str "disease") <|>
        kwHit (pyLower (pyStrip term)) (str "syndrome") <|>
        kwHit (pyLower (pyStrip term)) (str "disorder")) with
      | some b =>
        simp only [hchain]
        exact optChain_ne_some_false _ _ _
          (fun b h => kwHit_ne_some_false _ _ b h)
          (fun b h => kwHit_ne_some_false _ _ b h)
          (fun b h => kwHit_ne_some_false _ _ b h) b hchain
      | none =>
        simp only [hchain, Bool.and_eq_true, decide_eq_true_eq, List.all_eq_true]
        exact ⟨h1, fun part hp => h2 part hp⟩
  · -- generic qualifiers followed by disease/syndrome/disorder
    intro term kw hac hkw hend hpfx
    unfold isGeneric
    rw [if_neg (by simp [hac])]
    unfold genericCore
    split
    · rfl
    · have hhit : kwHit (pyLower (pyStrip term)) kw = some true := by
        refine kwHit_some_true _ _ hend ?_
        rcases hpfx with h | h
        · exact Or.inl h
        · exact Or.inr (by simpa [List.all_eq_true] using h)
      have hchain : (kwHit (pyLower (pyStrip term)) (str "disease") <|>
          kwHit (pyLower (pyStrip term)) (str "syndrome") <|>
          kwHit (pyLower (pyStrip term)) (str "disorder")) = some true := by
        refine optChain_some_true _ _ _
          (fun b h => kwHit_ne_some_false _ _ b h)
          (fun b h => kwHit_ne_some_false _ _ b h) ?_
        fin_cases hkw
        · exact Or.inl hhit
        · exact Or.inr (Or.inl hhit)
        · exact Or.inr (Or.inr hhit)
      simp [hchain]
  · -- all-uppercase prefix before " syndrome" is never generic
    intro term h
    unfold isGeneric
    rw [if_pos (by simp [h])]
  · -- generic names are never linked
    intro L sents genes ent h
    rw [assoc_singleton]
    exact processEnt_of_none _ _ _ _
      (linkTarget_guard_none _ _ _ _ (Or.inr (Or.inr (Or.inl h))))

/-- Witness for C4 at concrete inputs. -/
theorem C4_generic_filter_witness :
    isGeneric (str "tall stature") = true ∧
    isGeneric (str "hereditary disease") = true ∧
    isGeneric (str "SHORT syndrome") = false ∧
    associate_diseases (fun _ => ⟨none, none, none⟩)
      [⟨str "AAA", none, [(0, 5)], []⟩]
      ⟨[⟨0, 50⟩], [⟨str "DISEASE", str "autosomal recessive", 10, 29, ⟨0, 50⟩⟩]⟩
      = [⟨str "AAA", none, [(0, 5)], []⟩] := by
  refine ⟨?_, ?_, ?_, ?_⟩
  · exact C4_generic_filter.2.2.1 (str "tall stature") (by decide) (by decide)
  · exact C4_generic_filter.2.2.2.1 (str "hereditary disease") (str "disease")
      (by decide) (by decide) (by decide) (Or.inr (by decide))
  · exact C4_generic_filter.2.2.2.2.1 (str "SHORT syndrome") (by decide)
  · exact C4_generic_filter.2.2.2.2.2 _ _ _ _ (by decide)

/-- C5: a NER span is considered for gene linking only when its label is
DISEASE, its cleaned text is nonempty and non-generic, and the
cross-database validity check succeeds; the validity check holds exactly when
the stripped query is nonempty and at least one of the MedGen, MeSH and EBI
OLS lookups confirms the term, every lookup failure or error counting as
no confirmation. -/
theorem C5_span_guards :
    (∀ L term,
      is_valid_disease_name L term = true ↔
        (pyStrip term ≠ [] ∧
          (idConfirm (L (pyStrip term)).medgen = true ∨
           idConfirm (L (pyStrip term)).mesh = true ∨
           olsConfirm (L (pyStrip term)).ols = true))) ∧
    (∀ L sents genes ent,
      (ent.label ≠ str "DISEASE" ∨ cleanName ent.text = [] ∨
        isGeneric (cleanName ent.text) = true ∨
        is_valid_disease_name L (cleanName ent.text) = false) →
      associate_diseases L genes ⟨sents, [ent]⟩ = genes) := by
  constructor
  · intro L term
    unfold is_valid_disease_name
    by_cases hq : pyStrip term = []
    · simp [hq]
    · simp only [if_neg hq]
      by_cases h1 : idConfirm (L (pyStrip term)).medgen = true
      · simp [h1, hq]
      · by_cases h2 : idConfirm (L (pyStrip term)).mesh = true
        · simp [h1, h2, hq]
        · by_cases h3 : olsConfirm (L (pyStrip term)).ols = true
          · simp [h1, h2, h3, hq]
          · simp [h1, h2, h3, hq]
  · intro L sents genes ent h
    rw [assoc_singleton]
    exact processEnt_of_none _ _ _ _ (linkTarget_guard_none _ _ _ _ h)

/-- Witness for C5 at concrete inputs. -/
theorem C5_span_guards_witness :
    is_valid_disease_name (fun _ => ⟨some (200, true), none, none⟩) (str "flu") = true ∧
    associate_diseases (fun _ => ⟨some (200, true), none, none⟩)
      [⟨str "AAA", none, [(0, 5)], []⟩]
      ⟨[⟨0, 50⟩], [⟨str "CHEMICAL", str "aspirin", 10, 17, ⟨0, 50⟩⟩]⟩
      = [⟨str "AAA", none, [(0, 5)], []⟩] := by
  constructor
  · exact (C5_span_guards.1 (fun _ => ⟨some (200, true), none, none⟩) (str "flu")).mpr
      (by decide)
  · exact C5_span_guards.2 _ _ _ _ (Or.inl (by decide))

/-! ## Lemmas about the same-sentence minimum-distance fold -/

theorem any_eq_isSome_find? (l : List α) (p : α → Bool) :
    l.any p = (l.find? p).isSome := by
  induction l with
  | nil => rfl
  | cons x xs ih =>
    cases hx : p x
    · simp [List.any_cons, List.find?_cons, hx, ih]
    · simp [List.any_cons, List.find?_cons, hx]

theorem foldl_filter_isSome (l : List α) (f : α → Option β) (g : γ → β → γ)
    (F : γ → α → γ)
    (hsome : ∀ acc x y, f x = some y → F acc x = g acc y)
    (hnone : ∀ acc x, f x = none → F acc x = acc)
    (p : α → Bool) (hp : ∀ x ∈ l, p x = (f x).isSome) (init : γ) :
    (l.filter p).foldl F init = (l.filterMap f).foldl g init := by
  induction l generalizing init with
  | nil => rfl
  | cons x xs ih =>
    have hx := hp x (List.mem_cons_self x xs)
    have ihx := fun init => ih (fun y hy => hp y (List.mem_cons_of_mem _ hy)) init
    cases hfx : f x with
    | none =>
      have hpx : p x = false := by rw [hx, hfx]; rfl
      simp only [List.filter_cons, hpx, Bool.false_eq_true, if_false,
        List.filterMap_cons, hfx]
      exact ihx init
    | some y =>
      have hpx : p x = true := by rw [hx, hfx]; rfl
      simp only [List.filter_cons, hpx, if_true, List.filterMap_cons, hfx,
        List.foldl_cons]
      rw [hsome init x y hfx]
      exact ihx _

theorem foldl_minStep_keep (post : List (Nat × Nat)) (i d : Nat)
    (h : ∀ p ∈ post, d ≤ p.2) :
    post.foldl minStep (some (i, d)) = some (i, d) := by
  induction post with
  | nil => rfl
  | cons q qs ih =>
    have hq := h q (List.mem_cons_self q qs)
    have hstep : minStep (some (i, d)) q = some (i, d) := by
      simp [minStep, Nat.not_lt.mpr hq]
    rw [List.foldl_cons, hstep]
    exact ih (fun p hp => h p (List.mem_cons_of_mem _ hp))

theorem foldl_minStep_gt (pre : List (Nat × Nat)) (d : Nat)
    (h : ∀ p ∈ pre, d < p.2) (b : Option (Nat × Nat))
    (hb : b = none ∨ ∃ q, b = some q ∧ d < q.2) :
    pre.foldl minStep b = none ∨ ∃ q, pre.foldl minStep b = some q ∧ d < q.2 := by
  induction pre generalizing b with
  | nil => simpa using hb
  | cons x xs ih =>
    rw [List.foldl_cons]
    refine ih (fun p hp => h p (List.mem_cons_of_mem _ hp)) _ ?_
    have hx := h x (List.mem_cons_self x xs)
    rcases hb with hb | ⟨q, hq, hdq⟩
    · subst hb
      exact Or.inr ⟨x, rfl, hx⟩
    · subst hq
      rcases q with ⟨qi, qd⟩
      by_cases hlt : x.2 < qd
      · exact Or.inr ⟨x, by simp [minStep, hlt], hx⟩
      · exact Or.inr ⟨(qi, qd), by simp [minStep, hlt], hdq⟩

theorem foldl_minStep_argmin (pre post : List (Nat × Nat)) (i d : Nat)
    (hpre : ∀ p ∈ pre, d < p.2) (hpost : ∀ p ∈ post, d ≤ p.2) :
    (pre ++ (i, d) :: post).foldl minStep none = some (i, d) := by
  rw [List.foldl_append, List.foldl_cons]
  rcases foldl_minStep_gt pre d hpre none (Or.inl rfl) with hb | ⟨q, hq, hdq⟩
  · rw [hb]
    exact foldl_minStep_keep post i d hpost
  · rw [hq]
    have hstep : minStep (some q) (i, d) = some (i, d) := by
      rcases q with ⟨qi, qd⟩
      simp [minStep, hdq]
    rw [hstep]
    exact foldl_minStep_keep post i d hpost

theorem linkTarget_in_sentence (L : Str → DiseaseLookups) (sents : List Sent)
    (genes : List Gene) (ent : Ent) (i d : Nat) (pre post : List (Nat × Nat))
    (hl : ent.label = str "DISEASE")
    (hn : cleanName ent.text ≠ [])
    (hg : isGeneric (cleanName ent.text) = false)
    (hv : is_valid_disease_name L (cleanName ent.text) = true)
    (hcands : inSentCands genes ent.sent.start_char ent.sent.end_char
        ((ent.start_char : Int) + (ent.end_char : Int)) = pre ++ (i, d) :: post)
    (hpre : ∀ p ∈ pre, d < p.2) (hpost : ∀ p ∈ post, d ≤ p.2) :
    linkTarget L sents genes ent = some (i, cleanName ent.text) := by
  have hp : ∀ ig ∈ genes.enum,
      (ig.2.mentions.any (inSent ent.sent.start_char ent.sent.end_char))
        = (candFn ent.sent.start_char ent.sent.end_char
            ((ent.start_char : Int) + (ent.end_char : Int)) ig).isSome := by
    intro ig _
    rw [any_eq_isSome_find?, candFn]
    cases ig.2.mentions.find? (inSent ent.sent.start_char ent.sent.end_char) <;> rfl
  have hsome : ∀ (acc : Option (Nat × Nat)) (ig : Nat × Gene) (y : Nat × Nat),
      candFn ent.sent.start_char ent.sent.end_char
        ((ent.start_char : Int) + (ent.end_char : Int)) ig = some y →
      closestStep ent.sent.start_char ent.sent.end_char
        ((ent.start_char : Int) + (ent.end_char : Int)) acc ig = minStep acc y := by
    intro acc ig y hy
    rw [candFn] at hy
    cases hfind : ig.2.mentions.find? (inSent ent.sent.start_char ent.sent.end_char) with
    | none => rw [hfind] at hy; cases hy
    | some m =>
      rw [hfind] at hy
      simp only [Option.map_some'] at hy
      rw [closestStep, hfind, ← Option.some.inj hy]
  have hnone : ∀ (acc : Option (Nat × Nat)) (ig : Nat × Gene),
      candFn ent.sent.start_char ent.sent.end_char
        ((ent.start_char : Int) + (ent.end_char : Int)) ig = none →
      closestStep ent.sent.start_char ent.sent.end_char
        ((ent.start_char : Int) + (ent.end_char : Int)) acc ig = acc := by
    intro acc ig hy
    rw [candFn] at hy
    cases hfind : ig.2.mentions.find? (inSent ent.sent.start_char ent.sent.end_char) with
    | none => rw [closestStep, hfind]
    | some m => rw [hfind] at hy; cases hy
  have hnonempty : (genes.enum.filter (fun ig =>
      ig.2.mentions.any (inSent ent.sent.start_char ent.sent.end_char))).isEmpty = false := by
    have hmem : (i, d) ∈ inSentCands genes ent.sent.start_char ent.sent.end_char
        ((ent.start_char : Int) + (ent.end_char : Int)) := by
      rw [hcands]; simp
    rw [inSentCands, List.mem_filterMap] at hmem
    obtain ⟨ig, hig, hfig⟩ := hmem
    have hpig : (ig.2.mentions.any (inSent ent.sent.start_char ent.sent.end_char)) = true := by
      rw [hp ig hig, hfig]; rfl
    have hmemf : ig ∈ genes.enum.filter (fun ig =>
        ig.2.mentions.any (inSent ent.sent.start_char ent.sent.end_char)) :=
      List.mem_filter.mpr ⟨hig, hpig⟩
    cases hemp : (genes.enum.filter (fun ig =>
        ig.2.mentions.any (inSent ent.sent.start_char ent.sent.end_char))).isEmpty
    · rfl
    · rw [List.isEmpty_iff] at hemp
      rw [hemp] at hmemf
      cases hmemf
  unfold linkTarget
  rw [if_neg (by simp [hl]), if_neg hn, if_neg (by simp [hg]), if_neg (by simp [hv]),
    if_neg (by simp [hnonempty])]
  rw [foldl_filter_isSome genes.enum
    (candFn ent.sent.start_char ent.sent.end_char
      ((ent.start_char : Int) + (ent.end_char : Int))) minStep
    (closestStep ent.sent.start_char ent.sent.end_char
      ((ent.start_char : Int) + (ent.end_char : Int))) hsome hnone _ hp none]
  rw [show genes.enum.filterMap (candFn ent.sent.start_char ent.sent.end_char
      ((ent.start_char : Int) + (ent.end_char : Int))) = pre ++ (i, d) :: post from hcands]
  rw [foldl_minStep_argmin pre post i d hpre hpost]
  rfl

/-- C1 as stated is false on the code: the spec picks the gene whose nearest
in-sentence mention midpoint is closest ("AAA", whose second mention midpoint
coincides with the disease midpoint), but the code measures each gene only by
its first in-sentence mention and therefore links "BBB", leaving "AAA"
without the disease. -/
theorem C1_counterexample :
    specNearestGeneIdx
      [⟨str "AAA", none, [(0, 10), (95, 105)], []⟩, ⟨str "BBB", none, [(50, 60)], []⟩]
      0 200 200 = some 0 ∧
    (associate_diseases (fun _ => ⟨some (200, true), none, none⟩)
      [⟨str "AAA", none, [(0, 10), (95, 105)], []⟩, ⟨str "BBB", none, [(50, 60)], []⟩]
      ⟨[⟨0, 200⟩], [⟨str "DISEASE", str "neurofibromatosis", 90, 110, ⟨0, 200⟩⟩]⟩).map
      (fun g => g.diseases) = [[], [str "neurofibromatosis"]] := by
  exact ⟨by decide, by decide⟩

/-- C1 (amended): for an accepted disease span with at least one gene mention
inside its sentence, `associate_diseases` links the disease to the gene whose
FIRST in-sentence mention midpoint is closest to the disease span's midpoint,
the gene found first (earlier in the genes list) winning ties: when the
candidate list (gene index, doubled distance of the first in-sentence
mention) splits as `pre ++ (i, d) :: post` with every earlier candidate
strictly farther and every later candidate no nearer, gene `i` gains the
disease name. -/
theorem C1_first_mention_link (L : Str → DiseaseLookups) (sents : List Sent)
    (genes : List Gene) (ent : Ent) (i d : Nat) (pre post : List (Nat × Nat))
    (hl : ent.label = str "DISEASE") (hn : cleanName ent.text ≠ [])
    (hg : isGeneric (cleanName ent.text) = false)
    (hv : is_valid_disease_name L (cleanName ent.text) = true)
    (hcands : inSentCands genes ent.sent.start_char ent.sent.end_char
        ((ent.start_char : Int) + (ent.end_char : Int)) = pre ++ (i, d) :: post)
    (hpre : ∀ p ∈ pre, d < p.2) (hpost : ∀ p ∈ post, d ≤ p.2) :
    associate_diseases L genes ⟨sents, [ent]⟩
      = addDiseaseAt genes i (cleanName ent.text) := by
  rw [assoc_singleton]
  unfold processEnt
  rw [linkTarget_in_sentence L sents genes ent i d pre post hl hn hg hv hcands hpre hpost]

/-- Witness for the amended C1 at a concrete input. -/
theorem C1_first_mention_link_witness :
    associate_diseases (fun _ => ⟨some (200, true), none, none⟩)
      [⟨str "AAA", none, [(10, 14)], []⟩, ⟨str "BBB", none, [(20, 24)], []⟩]
      ⟨[⟨0, 50⟩], [⟨str "DISEASE", str "anemia", 18, 22, ⟨0, 50⟩⟩]⟩
      = addDiseaseAt [⟨str "AAA", none, [(10, 14)], []⟩, ⟨str "BBB", none, [(20, 24)], []⟩]
          1 (cleanName (str "anemia")) :=
  C1_first_mention_link _ _ _ _ 1 4 [(0, 16)] [] (by decide) (by decide) (by decide)
    (by decide) (by decide) (by decide) (by decide)

/-! ## Lemmas about the adjacent-sentence fallback -/

theorem filter_any_eq_nil (genes : List Gene) (a b : Nat) (n : Nat)
    (h : ∀ g ∈ genes, ∀ m ∈ g.mentions, inSent a b m = false) :
    (genes.enumFrom n).filter (fun ig => ig.2.mentions.any (inSent a b)) = [] := by
  induction genes generalizing n with
  | nil => rfl
  | cons g gs ih =>
    have hg : g.mentions.any (inSent a b) = false := by
      rw [List.any_eq_false]
      intro m hm
      simp [h g (List.mem_cons_self g gs) m hm]
    show ((n, g) :: gs.enumFrom (n + 1)).filter (fun ig => ig.2.mentions.any (inSent a b)) = []
    rw [List.filter_cons]
    simp only [hg, Bool.false_eq_true, if_false]
    exact ih (n + 1) (fun g' hg' m hm => h g' (List.mem_cons_of_mem _ hg') m hm)

theorem uniqueSymLink_eq_none (genes : List Gene) (s0 : Sent)
    (h : ∀ sym, symbolsIn genes s0 ≠ [sym]) : uniqueSymLink genes s0 = none := by
  unfold uniqueSymLink
  cases hs : symbolsIn genes s0 with
  | nil => rfl
  | cons x xs =>
    cases xs with
    | nil => exact absurd hs (h x)
    | cons y ys => rfl

theorem adjacentLink_prev (sents : List Sent) (genes : List Gene) (si : Nat) (ps : Sent)
    (sym : Str) (j : Nat) (h0 : 0 < si) (hget : sents.get? (si - 1) = some ps)
    (hsym : symbolsIn genes ps = [sym])
    (hfind : genes.findIdx? (fun g => decide (g.symbol = sym)) = some j) :
    adjacentLink sents genes si = some j := by
  unfold adjacentLink
  simp only [if_pos h0, hget]
  simp only [uniqueSymLink, hsym, hfind]

theorem prevLink_none (sents : List Sent) (genes : List Gene) (si : Nat)
    (hfail : si = 0 ∨ ∃ ps, sents.get? (si - 1) = some ps ∧
      ∀ sym, symbolsIn genes ps ≠ [sym]) :
    (if 0 < si then
      match sents.get? (si - 1) with
      | some prev_sent => uniqueSymLink genes prev_sent
      | none => none
     else none) = none := by
  rcases hfail with hfail | ⟨ps, hget, hps⟩
  · rw [if_neg (by omega)]
  · by_cases h0 : 0 < si
    · simp only [if_pos h0, hget, uniqueSymLink_eq_none genes ps hps]
    · rw [if_neg h0]

theorem adjacentLink_next (sents : List Sent) (genes : List Gene) (si : Nat) (ns : Sent)
    (sym : Str) (j : Nat)
    (hfail : si = 0 ∨ ∃ ps, sents.get? (si - 1) = some ps ∧
      ∀ sym', symbolsIn genes ps ≠ [sym'])
    (hlt : si < sents.length - 1) (hget : sents.get? (si + 1) = some ns)
    (hsym : symbolsIn genes ns = [sym])
    (hfind : genes.findIdx? (fun g => decide (g.symbol = sym)) = some j) :
    adjacentLink sents genes si = some j := by
  unfold adjacentLink
  rw [prevLink_none sents genes si hfail]
  simp only [if_pos hlt, hget, uniqueSymLink, hsym, hfind]

theorem adjacentLink_none (sents : List Sent) (genes : List Gene) (si : Nat)
    (hprev : si = 0 ∨ ∃ ps, sents.get? (si - 1) = some ps ∧
      ∀ sym, symbolsIn genes ps ≠ [sym])
    (hnext : sents.length - 1 ≤ si ∨ ∃ ns, sents.get? (si + 1) = some ns ∧
      ∀ sym, symbolsIn genes ns ≠ [sym]) :
    adjacentLink sents genes si = none := by
  unfold adjacentLink
  rw [prevLink_none sents genes si hprev]
  rcases hnext with hnext | ⟨ns, hget, hns⟩
  · simp only [if_neg (show ¬ si < sents.length - 1 by omega)]
  · by_cases hlt : si < sents.length - 1
    · simp only [if_pos hlt, hget, uniqueSymLink_eq_none genes ns hns]
    · simp only [if_neg hlt]

theorem linkTarget_adjacent (L : Str → DiseaseLookups) (sents : List Sent)
    (genes : List Gene) (ent : Ent)
    (hl : ent.label = str "DISEASE") (hn : cleanName ent.text ≠ [])
    (hg : isGeneric (cleanName ent.text) = false)
    (hv : is_valid_disease_name L (cleanName ent.text) = true)
    (hnone : ∀ g ∈ genes, ∀ m ∈ g.mentions,
      inSent ent.sent.start_char ent.sent.end_char m = false) :
    linkTarget L sents genes ent =
      (match sents.findIdx? (fun s0 => decide (s0.start_char = ent.sent.start_char)) with
       | none => none
       | some sent_index =>
          (adjacentLink sents genes sent_index).map (fun j => (j, cleanName ent.text))) := by
  have hfilter : genes.enum.filter (fun ig =>
      ig.2.mentions.any (inSent ent.sent.start_char ent.sent.end_char)) = [] :=
    filter_any_eq_nil genes _ _ 0 hnone
  unfold linkTarget
  rw [if_neg (by simp [hl]), if_neg hn, if_neg (by simp [hg]), if_neg (by simp [hv]),
    if_pos (by simp [hfilter])]

/-- C2: for an accepted disease span with no gene mention inside its own
sentence whose sentence is found at index `si`, `associate_diseases` first
inspects the immediately preceding sentence, linking to the first gene
carrying its unique symbol exactly when the mentions inside it belong to one
distinct symbol (first conjunct, regardless of the following sentence), and
inspects the immediately following sentence under the same rule only when the
preceding sentence is absent or does not yield exactly one distinct symbol
(second conjunct). -/
theorem C2_adjacent_sentence_rule (L : Str → DiseaseLookups) (sents : List Sent)
    (genes : List Gene) (ent : Ent) (si : Nat)
    (hl : ent.label = str "DISEASE") (hn : cleanName ent.text ≠ [])
    (hg : isGeneric (cleanName ent.text) = false)
    (hv : is_valid_disease_name L (cleanName ent.text) = true)
    (hnone : ∀ g ∈ genes, ∀ m ∈ g.mentions,
      inSent ent.sent.start_char ent.sent.end_char m = false)
    (hsi : sents.findIdx? (fun s0 => decide (s0.start_char = ent.sent.start_char))
      = some si) :
    (∀ ps sym j, 0 < si → sents.get? (si - 1) = some ps →
      symbolsIn genes ps = [sym] →
      genes.findIdx? (fun g => decide (g.symbol = sym)) = some j →
      associate_diseases L genes ⟨sents, [ent]⟩
        = addDiseaseAt genes j (cleanName ent.text)) ∧
    (∀ ns sym j,
      (si = 0 ∨ ∃ ps, sents.get? (si - 1) = some ps ∧
        ∀ sym', symbolsIn genes ps ≠ [sym']) →
      si < sents.length - 1 → sents.get? (si + 1) = some ns →
      symbolsIn genes ns = [sym] →
      genes.findIdx? (fun g => decide (g.symbol = sym)) = some j →
      associate_diseases L genes ⟨sents, [ent]⟩
        = addDiseaseAt genes j (cleanName ent.text)) := by
  have hadj := linkTarget_adjacent L sents genes ent hl hn hg hv hnone
  simp only [hsi] at hadj
  constructor
  · intro ps sym j h0 hget hsym hfind
    rw [assoc_singleton]
    unfold processEnt
    simp only [hadj, adjacentLink_prev sents genes si ps sym j h0 hget hsym hfind,
      Option.map_some']
  · intro ns sym j hfail hlt2 hget hsym hfind
    rw [assoc_singleton]
    unfold processEnt
    simp only [hadj, adjacentLink_next sents genes si ns sym j hfail hlt2 hget hsym hfind,
      Option.map_some']

/-- Witness for C2 at a concrete input: the gene is mentioned only in the
preceding sentence. -/
theorem C2_adjacent_sentence_rule_witness :
    associate_diseases (fun _ => ⟨some (200, true), none, none⟩)
      [⟨str "AAA", none, [(10, 15)], []⟩]
      ⟨[⟨0, 50⟩, ⟨50, 100⟩], [⟨str "DISEASE", str "anemia", 60, 66, ⟨50, 100⟩⟩]⟩
      = addDiseaseAt [⟨str "AAA", none, [(10, 15)], []⟩] 0 (cleanName (str "anemia")) :=
  (C2_adjacent_sentence_rule _ _ _ _ 1 (by decide) (by decide) (by decide) (by decide)
    (by decide) (by decide)).1 ⟨0, 50⟩ (str "AAA") 0 (by decide) (by decide) (by decide)
    (by decide)

/-- C3: a disease span with no gene mention inside its own sentence, where
neither the preceding nor the following sentence contains mentions of exactly
one distinct gene symbol (or the entity's sentence is not found at all),
produces no association: the gene list is unchanged. -/
theorem C3_no_adjacent_unique_drop (L : Str → DiseaseLookups) (sents : List Sent)
    (genes : List Gene) (ent : Ent)
    (hnone : ∀ g ∈ genes, ∀ m ∈ g.mentions,
      inSent ent.sent.start_char ent.sent.end_char m = false)
    (hcase : sents.findIdx? (fun s0 => decide (s0.start_char = ent.sent.start_char))
        = none ∨
      ∃ si, sents.findIdx? (fun s0 => decide (s0.start_char = ent.sent.start_char))
          = some si ∧
        (si = 0 ∨ ∃ ps, sents.get? (si - 1) = some ps ∧
          ∀ sym, symbolsIn genes ps ≠ [sym]) ∧
        (sents.length - 1 ≤ si ∨ ∃ ns, sents.get? (si + 1) = some ns ∧
          ∀ sym, symbolsIn genes ns ≠ [sym])) :
    associate_diseases L genes ⟨sents, [ent]⟩ = genes := by
  rw [assoc_singleton]
  by_cases hl : ent.label = str "DISEASE"
  case neg =>
    exact processEnt_of_none _ _ _ _ (linkTarget_guard_none _ _ _ _ (Or.inl hl))
  by_cases hn : cleanName ent.text = []
  case pos =>
    exact processEnt_of_none _ _ _ _ (linkTarget_guard_none _ _ _ _ (Or.inr (Or.inl hn)))
  by_cases hg : isGeneric (cleanName ent.text) = true
  case pos =>
    exact processEnt_of_none _ _ _ _
      (linkTarget_guard_none _ _ _ _ (Or.inr (Or.inr (Or.inl hg))))
  by_cases hv : is_valid_disease_name L (cleanName ent.text) = true
  case neg =>
    have hv' : is_valid_disease_name L (cleanName ent.text) = false := by
      revert hv; cases is_valid_disease_name L (cleanName ent.text) <;> simp
    exact processEnt_of_none _ _ _ _
      (linkTarget_guard_none _ _ _ _ (Or.inr (Or.inr (Or.inr hv'))))
  have hg' : isGeneric (cleanName ent.text) = false := by
    revert hg; cases isGeneric (cleanName ent.text) <;> simp
  have hadj := linkTarget_adjacent L sents genes ent hl hn hg' hv hnone
  rcases hcase with hnil | ⟨si, hsi, hprev, hnext⟩
  · simp only [hnil] at hadj
    exact processEnt_of_none _ _ _ _ hadj
  · simp only [hsi, adjacentLink_none sents genes si hprev hnext, Option.map_none'] at hadj
    exact processEnt_of_none _ _ _ _ hadj

/-- Witness for C3 at a concrete input: the only gene mention lies outside the
single sentence, which has no neighbours. -/
theorem C3_no_adjacent_unique_drop_witness :
    associate_diseases (fun _ => ⟨some (200, true), none, none⟩)
      [⟨str "AAA", none, [(60, 65)], []⟩]
      ⟨[⟨0, 50⟩], [⟨str "DISEASE", str "anemia", 10, 16, ⟨0, 50⟩⟩]⟩
      = [⟨str "AAA", none, [(60, 65)], []⟩] :=
  C3_no_adjacent_unique_drop _ _ _ _ (by decide)
    (Or.inr ⟨0, by decide, Or.inl rfl, Or.inl (by decide)⟩)

/-! ## Frame lemmas for `associate_diseases` -/

theorem addDiseaseAt_length (l : List Gene) (i : Nat) (name : Str) :
    (addDiseaseAt l i name).length = l.length := by
  induction l generalizing i with
  | nil => rfl
  | cons g gs ih =>
    cases i with
    | zero => simp [addDiseaseAt]
    | succ n => simp [addDiseaseAt, ih]

theorem addDiseaseAt_get? (l : List Gene) (i : Nat) (name : Str) (j : Nat) :
    (addDiseaseAt l i name).get? j =
      if j = i then (l.get? j).map (fun g => { g with diseases := setAdd g.diseases name })
      else l.get? j := by
  induction l generalizing i j with
  | nil => simp [addDiseaseAt]
  | cons g gs ih =>
    cases i with
    | zero =>
      cases j with
      | zero => simp [addDiseaseAt]
      | succ m => simp [addDiseaseAt]
    | succ n =>
      cases j with
      | zero => simp [addDiseaseAt]
      | succ m =>
        show (addDiseaseAt gs n name).get? m =
          if m + 1 = n + 1 then
            (gs.get? m).map (fun g => { g with diseases := setAdd g.diseases name })
          else gs.get? m
        rw [ih n m]
        by_cases h : m = n
        · rw [if_pos h, if_pos (by omega)]
        · rw [if_neg h, if_neg (by omega)]

theorem mem_setAdd (s : List Str) (x d : Str) (h : d ∈ s) : d ∈ setAdd s x := by
  unfold setAdd
  split
  · exact h
  · exact List.mem_append_left _ h

theorem processEnt_frame (L : Str → DiseaseLookups) (sents : List Sent)
    (genes : List Gene) (ent : Ent) :
    (processEnt L sents genes ent).length = genes.length ∧
    ∀ j g g', genes.get? j = some g → (processEnt L sents genes ent).get? j = some g' →
      g'.symbol = g.symbol ∧ g'.hgnc_id = g.hgnc_id ∧ g'.mentions = g.mentions ∧
        ∀ d ∈ g.diseases, d ∈ g'.diseases := by
  unfold processEnt
  cases hlt : linkTarget L sents genes ent with
  | none =>
    refine ⟨rfl, ?_⟩
    intro j g g' h1 h2
    rw [h1] at h2
    cases Option.some.inj h2
    exact ⟨rfl, rfl, rfl, fun d hd => hd⟩
  | some p =>
    rcases p with ⟨i, name⟩
    refine ⟨addDiseaseAt_length genes i name, ?_⟩
    intro j g g' h1 h2
    rw [addDiseaseAt_get? genes i name j] at h2
    by_cases hj : j = i
    · rw [if_pos hj, h1, Option.map_some'] at h2
      cases Option.some.inj h2
      exact ⟨rfl, rfl, rfl, fun d hd => mem_setAdd _ _ _ hd⟩
    · rw [if_neg hj, h1] at h2
      cases Option.some.inj h2
      exact ⟨rfl, rfl, rfl, fun d hd => hd⟩

theorem foldl_processEnt_frame (L : Str → DiseaseLookups) (sents : List Sent)
    (ents : List Ent) (genes : List Gene) :
    (ents.foldl (processEnt L sents) genes).length = genes.length ∧
    ∀ j g g', genes.get? j = some g →
      (ents.foldl (processEnt L sents) genes).get? j = some g' →
      g'.symbol = g.symbol ∧ g'.hgnc_id = g.hgnc_id ∧ g'.mentions = g.mentions ∧
        ∀ d ∈ g.diseases, d ∈ g'.diseases := by
  induction ents generalizing genes with
  | nil =>
    refine ⟨rfl, ?_⟩
    intro j g g' h1 h2
    rw [List.foldl_nil, h1] at h2
    cases Option.some.inj h2
    exact ⟨rfl, rfl, rfl, fun d hd => hd⟩
  | cons e es ih =>
    rw [List.foldl_cons]
    obtain ⟨hlen1, hrel1⟩ := processEnt_frame L sents genes e
    obtain ⟨hlen2, hrel2⟩ := ih (processEnt L sents genes e)
    refine ⟨hlen2.trans hlen1, ?_⟩
    intro j g g' h1 h2
    have hjlt : j < genes.length := by
      by_contra hjj
      rw [List.get?_eq_none.mpr (by omega)] at h1
      cases h1
    have hne : (processEnt L sents genes e).get? j ≠ none := by
      rw [Ne, List.get?_eq_none, hlen1]
      omega
    obtain ⟨gm, hgm⟩ := Option.ne_none_iff_exists'.mp hne
    obtain ⟨r1a, r1b, r1c, r1d⟩ := hrel1 j g gm h1 hgm
    obtain ⟨r2a, r2b, r2c, r2d⟩ := hrel2 j gm g' hgm h2
    exact ⟨r2a.trans r1a, r2b.trans r1b, r2c.trans r1c, fun d hd => r2d d (r1d d hd)⟩

/-- C10: `associate_diseases` only adds disease names to per-gene disease
sets: the output list has the same length, the gene at each index keeps its
symbol, HGNC id and mentions, and every disease already present is still
present afterwards. -/
theorem C10_only_adds_diseases (L : Str → DiseaseLookups) (genes : List Gene) (doc : Doc) :
    (associate_diseases L genes doc).length = genes.length ∧
    ∀ j g g', genes.get? j = some g →
      (associate_diseases L genes doc).get? j = some g' →
      g'.symbol = g.symbol ∧ g'.hgnc_id = g.hgnc_id ∧ g'.mentions = g.mentions ∧
        ∀ d ∈ g.diseases, d ∈ g'.diseases :=
  foldl_processEnt_frame L doc.sents doc.ents genes

/-- Witness for C10 at a concrete input on which a link does fire. -/
theorem C10_only_adds_diseases_witness :
    (associate_diseases (fun _ => ⟨some (200, true), none, none⟩)
      [⟨str "AAA", none, [(10, 14)], [str "x"]⟩]
      ⟨[⟨0, 50⟩], [⟨str "DISEASE", str "anemia", 18, 22, ⟨0, 50⟩⟩]⟩).length
      = ([⟨str "AAA", none, [(10, 14)], [str "x"]⟩] : List Gene).length ∧
    (⟨str "AAA", none, [(10, 14)], [str "x", str "anemia"]⟩ : Gene).symbol
      = (⟨str "AAA", none, [(10, 14)], [str "x"]⟩ : Gene).symbol ∧
    str "x" ∈ (⟨str "AAA", none, [(10, 14)], [str "x", str "anemia"]⟩ : Gene).diseases :=
  ⟨(C10_only_adds_diseases (fun _ => ⟨some (200, true), none, none⟩)
      [⟨str "AAA", none, [(10, 14)], [str "x"]⟩]
      ⟨[⟨0, 50⟩], [⟨str "DISEASE", str "anemia", 18, 22, ⟨0, 50⟩⟩]⟩).1,
   ((C10_only_adds_diseases (fun _ => ⟨some (200, true), none, none⟩)
      [⟨str "AAA", none, [(10, 14)], [str "x"]⟩]
      ⟨[⟨0, 50⟩], [⟨str "DISEASE", str "anemia", 18, 22, ⟨0, 50⟩⟩]⟩).2
      0 ⟨str "AAA", none, [(10, 14)], [str "x"]⟩
      ⟨str "AAA", none, [(10, 14)], [str "x", str "anemia"]⟩
      (by decide) (by decide)).1,
   ((C10_only_adds_diseases (fun _ => ⟨some (200, true), none, none⟩)
      [⟨str "AAA", none, [(10, 14)], [str "x"]⟩]
      ⟨[⟨0, 50⟩], [⟨str "DISEASE", str "anemia", 18, 22, ⟨0, 50⟩⟩]⟩).2
      0 ⟨str "AAA", none, [(10, 14)], [str "x"]⟩
      ⟨str "AAA", none, [(10, 14)], [str "x", str "anemia"]⟩
      (by decide) (by decide)).2.2.2 (str "x") (by decide)⟩

/-! ## Invariants of the gene extractor -/

theorem updExplicit_symbol (sym : Str) (hid : Nat) (men : Nat × Nat) (g : GeneRec) :
    (updExplicit sym hid men g).symbol = g.symbol := by
  unfold updExplicit
  split <;> rfl

theorem updExplicit_mentions (sym : Str) (hid : Nat) (men : Nat × Nat) (g : GeneRec)
    (m : Nat × Nat) (hm : m ∈ (updExplicit sym hid men g).mentions) :
    m ∈ g.mentions ∨ (g.symbol = sym ∧ m = men) := by
  unfold updExplicit at hm
  split at hm
  case isTrue h =>
    rcases List.mem_append.mp hm with h1 | h1
    · exact Or.inl h1
    · rw [List.mem_singleton] at h1
      exact Or.inr ⟨h, h1⟩
  case isFalse h => exact Or.inl hm

theorem updContext_symbol (sym : Str) (men : Nat × Nat) (g : GeneRec) :
    (updContext sym men g).symbol = g.symbol := by
  unfold updContext
  split <;> rfl

theorem updContext_mentions (sym : Str) (men : Nat × Nat) (g : GeneRec)
    (m : Nat × Nat) (hm : m ∈ (updContext sym men g).mentions) :
    m ∈ g.mentions ∨ (g.symbol = sym ∧ m = men) := by
  unfold updContext at hm
  split at hm
  case isTrue h =>
    rcases List.mem_append.mp hm with h1 | h1
    · exact Or.inl h1
    · rw [List.mem_singleton] at h1
      exact Or.inr ⟨h, h1⟩
  case isFalse h => exact Or.inl hm

theorem upsertExplicit_inv (text : Str) (acc : List GeneRec) (sym : Str) (hid : Nat)
    (men : Nat × Nat) (hs : pyUpper (pySlice text men.1 men.2) = sym)
    (hnodup : (acc.map (fun g => g.symbol)).Nodup)
    (hinv : ∀ g ∈ acc, ∀ m ∈ g.mentions, pyUpper (pySlice text m.1 m.2) = g.symbol) :
    ((upsertExplicit acc sym hid men).map (fun g => g.symbol)).Nodup ∧
    ∀ g ∈ upsertExplicit acc sym hid men, ∀ m ∈ g.mentions,
      pyUpper (pySlice text m.1 m.2) = g.symbol := by
  unfold upsertExplicit
  by_cases hmem : sym ∈ acc.map (fun g => g.symbol)
  · rw [if_pos hmem]
    have hmap : (acc.map (updExplicit sym hid men)).map (fun g => g.symbol)
        = acc.map (fun g => g.symbol) := by
      rw [List.map_map]
      exact congrArg (fun f => acc.map f)
        (funext fun g => updExplicit_symbol sym hid men g)
    refine ⟨hmap ▸ hnodup, ?_⟩
    intro g hg m hm
    obtain ⟨g0, hg0, rfl⟩ := List.mem_map.mp hg
    rw [updExplicit_symbol]
    rcases updExplicit_mentions sym hid men g0 m hm with h1 | ⟨h1, h2⟩
    · exact hinv g0 hg0 m h1
    · rw [h1, h2]
      exact hs
  · rw [if_neg hmem]
    constructor
    · rw [List.map_append]
      refine List.Nodup.append hnodup (List.nodup_singleton _) ?_
      intro a ha hb
      simp only [List.map_cons, List.map_nil, List.mem_singleton] at hb
      subst hb
      exact hmem ha
    · intro g hg m hm
      rcases List.mem_append.mp hg with h1 | h1
      · exact hinv g h1 m hm
      · rw [List.mem_singleton] at h1
        subst h1
        rw [List.mem_singleton] at hm
        subst hm
        exact hs

theorem upsertContext_inv (text : Str) (acc : List GeneRec) (sym : Str)
    (men : Nat × Nat) (hs : pyUpper (pySlice text men.1 men.2) = sym)
    (hnodup : (acc.map (fun g => g.symbol)).Nodup)
    (hinv : ∀ g ∈ acc, ∀ m ∈ g.mentions, pyUpper (pySlice text m.1 m.2) = g.symbol) :
    ((upsertContext acc sym men).map (fun g => g.symbol)).Nodup ∧
    ∀ g ∈ upsertContext acc sym men, ∀ m ∈ g.mentions,
      pyUpper (pySlice text m.1 m.2) = g.symbol := by
  unfold upsertContext
  by_cases hmem : sym ∈ acc.map (fun g => g.symbol)
  · rw [if_pos hmem]
    have hmap : (acc.map (updContext sym men)).map (fun g => g.symbol)
        = acc.map (fun g => g.symbol) := by
      rw [List.map_map]
      exact congrArg (fun f => acc.map f) (funext fun g => updContext_symbol sym men g)
    refine ⟨hmap ▸ hnodup, ?_⟩
    intro g hg m hm
    obtain ⟨g0, hg0, rfl⟩ := List.mem_map.mp hg
    rw [updContext_symbol]
    rcases updContext_mentions sym men g0 m hm with h1 | ⟨h1, h2⟩
    · exact hinv g0 hg0 m h1
    · rw [h1, h2]
      exact hs
  · rw [if_neg hmem]
    constructor
    · rw [List.map_append]
      refine List.Nodup.append hnodup (List.nodup_singleton _) ?_
      intro a ha hb
      simp only [List.map_cons, List.map_nil, List.mem_singleton] at hb
      subst hb
      exact hmem ha
    · intro g hg m hm
      rcases List.mem_append.mp hg with h1 | h1
      · exact hinv g h1 m hm
      · rw [List.mem_singleton] at h1
        subst h1
        rw [List.mem_singleton] at hm
        subst hm
        exact hs

theorem foldl_upsertExplicit_inv (text : Str) (ems : List EMatch) (acc : List GeneRec)
    (hnodup : (acc.map (fun g => g.symbol)).Nodup)
    (hinv : ∀ g ∈ acc, ∀ m ∈ g.mentions, pyUpper (pySlice text m.1 m.2) = g.symbol) :
    (((ems.foldl (fun acc m =>
        upsertExplicit acc (pyUpper (pySlice text m.s1 m.e1)) m.hid (m.s1, m.e1)) acc)).map
      (fun g => g.symbol)).Nodup ∧
    ∀ g ∈ ems.foldl (fun acc m =>
        upsertExplicit acc (pyUpper (pySlice text m.s1 m.e1)) m.hid (m.s1, m.e1)) acc,
      ∀ m ∈ g.mentions, pyUpper (pySlice text m.1 m.2) = g.symbol := by
  induction ems generalizing acc with
  | nil => exact ⟨hnodup, hinv⟩
  | cons m ms ih =>
    rw [List.foldl_cons]
    obtain ⟨h1, h2⟩ := upsertExplicit_inv text acc (pyUpper (pySlice text m.s1 m.e1))
      m.hid (m.s1, m.e1) rfl hnodup hinv
    exact ih _ h1 h2

theorem foldl_upsertContext_inv (text : Str) (cms : List CMatch) (acc : List GeneRec)
    (hnodup : (acc.map (fun g => g.symbol)).Nodup)
    (hinv : ∀ g ∈ acc, ∀ m ∈ g.mentions, pyUpper (pySlice text m.1 m.2) = g.symbol) :
    (((cms.foldl (fun acc m =>
        upsertContext acc (pyUpper (pySlice text m.s1 m.e1)) (m.s1, m.e1)) acc)).map
      (fun g => g.symbol)).Nodup ∧
    ∀ g ∈ cms.foldl (fun acc m =>
        upsertContext acc (pyUpper (pySlice text m.s1 m.e1)) (m.s1, m.e1)) acc,
      ∀ m ∈ g.mentions, pyUpper (pySlice text m.1 m.2) = g.symbol := by
  induction cms generalizing acc with
  | nil => exact ⟨hnodup, hinv⟩
  | cons m ms ih =>
    rw [List.foldl_cons]
    obtain ⟨h1, h2⟩ := upsertContext_inv text acc (pyUpper (pySlice text m.s1 m.e1))
      (m.s1, m.e1) rfl hnodup hinv
    exact ih _ h1 h2

/-- C6: for any text and any finditer match streams, `extract_genes` returns
at most one record per uppercased symbol (the symbol list is duplicate-free),
and every recorded offset pair delimits an occurrence of the record's symbol
in the source text (the slice uppercases to the symbol; each record's HGNC id
is an `Option Nat` by construction). -/
theorem C6_extract_genes_unique (text : Str) (ems : List EMatch) (cms : List CMatch) :
    ((extract_genes text ems cms).map (fun g => g.symbol)).Nodup ∧
    ∀ g ∈ extract_genes text ems cms, ∀ m ∈ g.mentions,
      pyUpper (pySlice text m.1 m.2) = g.symbol := by
  have hcopy : extract_genes text ems cms
      = cms.foldl (fun acc m =>
          upsertContext acc (pyUpper (pySlice text m.s1 m.e1)) (m.s1, m.e1))
        (ems.foldl (fun acc m =>
          upsertExplicit acc (pyUpper (pySlice text m.s1 m.e1)) m.hid (m.s1, m.e1)) []) := by
    unfold extract_genes
    rw [show (fun g : GeneRec =>
        ({ symbol := g.symbol, hgnc_id := g.hgnc_id, mentions := g.mentions } : GeneRec))
        = id from funext fun g => rfl, List.map_id]
  rw [hcopy]
  obtain ⟨h1, h2⟩ := foldl_upsertExplicit_inv text ems []
    (by simp) (by intro g hg; cases hg)
  exact foldl_upsertContext_inv text cms _ h1 h2

/-- Witness for C6 at a concrete input. -/
theorem C6_extract_genes_unique_witness :
    ((extract_genes (str "mutation in TP53 (HGNC:11998)") [⟨12, 16, 11998⟩]
      [⟨12, 16⟩]).map (fun g => g.symbol)).Nodup ∧
    pyUpper (pySlice (str "mutation in TP53 (HGNC:11998)") 12 16) = str "TP53" :=
  ⟨(C6_extract_genes_unique (str "mutation in TP53 (HGNC:11998)") [⟨12, 16, 11998⟩]
      [⟨12, 16⟩]).1,
   (C6_extract_genes_unique (str "mutation in TP53 (HGNC:11998)") [⟨12, 16, 11998⟩]
      [⟨12, 16⟩]).2 ⟨str "TP53", some 11998, [(12, 16), (12, 16)]⟩ (by decide)
      (12, 16) (by decide)⟩

/-- C7 as stated is false on the code: the enrichment fetchers swallow
network and parse failures, but a successfully decoded response of unexpected
shape still raises.  Concretely, when the HGNC API returns the JSON array
`[]`, `fetch_hgnc_by_symbol` evaluates `data.get("response", {})` on a list
and raises `AttributeError` outside any `try` block, so "none of these
functions raises" fails. -/
theorem C7_counterexample :
    fetch_hgnc_by_symbol (fun _ => some (Json.jarr [])) (str "TP53")
      = Except.error PErr.attrError := rfl

/-- C7 (amended): for any network or parse failure — the HTTP request or the
JSON decoding raising inside the guarded block — `fetch_hgnc_by_symbol` and
`fetch_hgnc_by_id` return `{}`, `fetch_ncbi_aliases` returns `[]`, and
`fetch_coordinates_by_ensembl` returns `""`, propagating nothing; only a
decoded response of unexpected JSON shape can still raise. -/
theorem C7_fetch_failures_swallowed :
    (∀ symbol, fetch_hgnc_by_symbol (fun _ => none) symbol = .ok (.jobj [])) ∧
    (∀ hgnc_id, fetch_hgnc_by_id (fun _ => none) hgnc_id = .ok (.jobj [])) ∧
    (∀ entrez_id, fetch_ncbi_aliases none entrez_id = .ok []) ∧
    fetch_coordinates_by_ensembl none = .ok [] ∧
    (∀ status, fetch_coordinates_by_ensembl (some (status, none)) = .ok []) := by
  refine ⟨fun _ => rfl, ?_, fun _ => rfl, rfl, ?_⟩
  · intro hgnc_id
    unfold fetch_hgnc_by_id
    split <;> rfl
  · intro status
    simp only [fetch_coordinates_by_ensembl]
    split <;> rfl

/-! ## The CSV writer -/

theorem foldl_csvLine (rows : List GeneInfo) (init : Str) :
    rows.foldl (fun out g => out ++ csvLine (geneInfoRow g)) init
      = init ++ (rows.map (fun g => csvLine (geneInfoRow g))).flatten := by
  induction rows generalizing init with
  | nil => simp
  | cons r rs ih => simp [List.foldl_cons, ih, List.append_assoc]

/-- C9: the text written by `write_csv` renders exactly the header row
followed by one row per record in input order, each row being the record's
seven fields in column order. -/
theorem C9_write_csv_layout (rows : List GeneInfo) :
    write_csv rows = csvRender (csvHeaders :: rows.map geneInfoRow) ∧
    (csvHeaders :: rows.map geneInfoRow).get? 0 = some csvHeaders ∧
    ∀ i, (csvHeaders :: rows.map geneInfoRow).get? (i + 1)
      = (rows.get? i).map geneInfoRow := by
  refine ⟨?_, rfl, ?_⟩
  · unfold write_csv csvRender
    rw [foldl_csvLine]
    simp only [List.map_cons, List.flatten_cons, List.map_map]
    rfl
  · intro i
    simp [List.get?_map]

/-! ## Error analysis of `get_article_text` -/

theorem pyGet_error (j : Json) (k : Str) (dflt : Json) (e : PErr)
    (h : pyGet j k dflt = .error e) : e = .attrError := by
  unfold pyGet at h
  split at h
  · split at h <;> exact Except.noConfusion h
  · exact (Except.error.inj h).symm

theorem pyIndex0_ne_valueError (j : Json) : pyIndex0 j ≠ .error .valueError := by
  intro h
  cases j with
  | null => simp [pyIndex0] at h
  | jbool b => simp [pyIndex0] at h
  | jnum n => simp [pyIndex0] at h
  | jstr s => cases s <;> simp [pyIndex0] at h
  | jarr xs => cases xs <;> simp [pyIndex0] at h
  | jobj fs => simp [pyIndex0] at h

theorem except_bind_error {α β : Type} (x : Except PErr α) (f : α → Except PErr β)
    (e : PErr) (h : (x >>= f) = .error e) :
    x = .error e ∨ ∃ a, x = .ok a ∧ f a = .error e := by
  cases x with
  | error e' =>
    have he : e' = e := by
      rw [show ((Except.error e' : Except PErr α) >>= f)
          = (Except.error e' : Except PErr β) from rfl] at h
      exact Except.error.inj h
    exact Or.inl (he ▸ rfl)
  | ok a =>
    rw [show ((Except.ok a : Except PErr α) >>= f) = f a from rfl] at h
    exact Or.inr ⟨a, rfl, h⟩

theorem resolvePmcid_ne_valueError (searchNet : Str → Option Json) (pmid : Str) :
    resolvePmcid searchNet pmid ≠ .error .valueError := by
  intro hcontra
  unfold resolvePmcid at hcontra
  split at hcontra
  · simp at hcontra
  · split at hcontra
    · rename_i e heq
      have he : e = PErr.valueError := Except.error.inj hcontra
      subst he
      rcases except_bind_error _ _ _ heq with h2 | ⟨rl, _, h2⟩
      · exact absurd (pyGet_error _ _ _ _ h2) (by decide)
      · exact absurd (pyGet_error _ _ _ _ h2) (by decide)
    · split at hcontra
      · simp at hcontra
      · split at hcontra
        · rename_i e heq
          have he : e = PErr.valueError := Except.error.inj hcontra
          subst he
          rcases except_bind_error _ _ _ heq with h3 | ⟨first, _, h3⟩
          · exact absurd h3 (pyIndex0_ne_valueError _)
          · exact absurd (pyGet_error _ _ _ _ h3) (by decide)
        · split at hcontra <;> simp at hcontra

theorem fetchBody_ne_valueError (xmlNet : Str → Option Str)
    (xmlParse : Str → Option Xml) (pmcid : Str) :
    fetchBody xmlNet xmlParse pmcid ≠ .error .valueError := by
  intro hcontra
  unfold fetchBody at hcontra
  split at hcontra
  · simp at hcontra
  · split at hcontra
    · simp at hcontra
    · split at hcontra <;> simp at hcontra

/-- C8: `get_article_text` raises `ValueError` exactly when the stripped
identifier neither starts with "PMC" (case-insensitively) nor starts with
"PMID" (case-insensitively) nor consists entirely of digits; no other stage
of the function produces a `ValueError`. -/
theorem C8_valueError_iff_bad_identifier (searchNet : Str → Option Json)
    (xmlNet : Str → Option Str) (xmlParse : Str → Option Xml) (identifier : Str) :
    get_article_text searchNet xmlNet xmlParse identifier = .error .valueError ↔
      (startsWithB (pyUpper (pyStrip identifier)) (str "PMC") = false ∧
       startsWithB (pyUpper (pyStrip identifier)) (str "PMID") = false ∧
       pyIsDigitStr (pyStrip identifier) = false) := by
  unfold get_article_text
  by_cases h1 : startsWithB (pyUpper (pyStrip identifier)) (str "PMC") = true
  · rw [if_pos h1]
    constructor
    · intro h
      exact absurd h (fetchBody_ne_valueError _ _ _)
    · rintro ⟨hA, -, -⟩
      rw [h1] at hA
      cases hA
  · have h1' : startsWithB (pyUpper (pyStrip identifier)) (str "PMC") = false := by
      revert h1; cases startsWithB (pyUpper (pyStrip identifier)) (str "PMC") <;> simp
    rw [if_neg (by simp [h1'])]
    by_cases h2 : startsWithB (pyUpper (pyStrip identifier)) (str "PMID") = true
    · rw [if_pos h2]
      constructor
      · intro h
        split at h
        · rename_i e heq
          have he : e = PErr.valueError := Except.error.inj h
          subst he
          exact absurd heq (resolvePmcid_ne_valueError _ _)
        · exact absurd h (fetchBody_ne_valueError _ _ _)
      · rintro ⟨-, hB, -⟩
        rw [h2] at hB
        cases hB
    · have h2' : startsWithB (pyUpper (pyStrip identifier)) (str "PMID") = false := by
        revert h2; cases startsWithB (pyUpper (pyStrip identifier)) (str "PMID") <;> simp
      rw [if_neg (by simp [h2'])]
      by_cases h3 : pyIsDigitStr (pyStrip identifier) = true
      · rw [if_pos h3]
        constructor
        · intro h
          split at h
          · rename_i e heq
            have he : e = PErr.valueError := Except.error.inj h
            subst he
            exact absurd heq (resolvePmcid_ne_valueError _ _)
          · exact absurd h (fetchBody_ne_valueError _ _ _)
        · rintro ⟨-, -, hC⟩
          rw [h3] at hC
          cases hC
      · have h3' : pyIsDigitStr (pyStrip identifier) = false := by
          revert h3; cases pyIsDigitStr (pyStrip identifier) <;> simp
        rw [if_neg (by simp [h3'])]
        exact ⟨fun _ => ⟨h1', h2', h3'⟩, fun _ => rfl⟩

